import Mathlib

/-!
Verification of the watermark API (`src/watermark_api.py`) against its
natural-language specification.

The Python source is shallowly embedded below.  Pure helper functions
(`hex_to_rgba`, `resize_image`, the position dispatch of `add_watermark`)
become Lean functions on `List Char`, `ℤ` and `ℚ` (Python ints are `ℤ`,
Python float arithmetic on halves and on aspect ratios is modelled by exact
rational arithmetic).  The PIL image library is an external collaborator
(spec §1 treats decode/encode, font loading and pixel operations as out of
scope), so its operations are modelled from their documented semantics: an
image is a buffer with a mode, a size and a symbolic pixel content, and each
PIL call either allocates a new buffer or overwrites an existing one exactly
as documented (`Image.thumbnail` resizes in place, `ImageDraw.Draw.text`
draws in place, `Image.convert` / `Image.alpha_composite` return new
images).  The FastAPI endpoints become functions that also return the
ordered trace of file reads and per-image processing steps, so that
"validated before any bytes are read" is expressible.
-/

/-! ### Color resolution (`hex_to_rgba`, lines 21-26) -/

/-- A character matched by the regex class `[0-9A-Fa-f]`. -/
def isHexDigitChar (c : Char) : Bool :=
  (48 ≤ c.toNat && c.toNat ≤ 57) || (65 ≤ c.toNat && c.toNat ≤ 70) ||
    (97 ≤ c.toNat && c.toNat ≤ 102)

/-- Numeric value of one hex digit, as used by Python's `int(_, 16)`. -/
def hexDigitVal (c : Char) : ℕ :=
  if 48 ≤ c.toNat ∧ c.toNat ≤ 57 then c.toNat - 48
  else if 65 ≤ c.toNat ∧ c.toNat ≤ 70 then c.toNat - 55
  else c.toNat - 87

/-- Python's `int(s, 16)` on a string of hex digits (the only inputs it
receives in `hex_to_rgba`, where the slice comes from a fullmatched
`[0-9A-Fa-f]{6}` string). -/
def pyIntHex (s : List Char) : ℤ :=
  s.foldl (fun a c => 16 * a + (hexDigitVal c : ℤ)) 0

/-- The reassignment `hex_color = hex_color.lstrip("#")` (line 23):
`str.lstrip("#")` removes every leading `'#'`, i.e. `List.dropWhile`. -/
def lstripHash (hex_color : List Char) : List Char :=
  hex_color.dropWhile (fun c => c == '#')

/-- Embedding of `hex_to_rgba` (lines 21-26).
`re.fullmatch(r"[0-9A-Fa-f]{6}", _)` is length-6 plus the character class;
the three slices `[0:2]`, `[2:4]`, `[4:6]` are parsed with `int(_, 16)`. -/
def hex_to_rgba (hex_color : List Char) (opacity : ℤ) : ℤ × ℤ × ℤ × ℤ :=
  if (lstripHash hex_color).length = 6 ∧
      (lstripHash hex_color).all isHexDigitChar = true then
    (pyIntHex ((lstripHash hex_color).take 2),
      pyIntHex (((lstripHash hex_color).drop 2).take 2),
      pyIntHex (((lstripHash hex_color).drop 4).take 2), opacity)
  else (255, 255, 255, opacity)

/-- C1 (counterexample): the claim reads the code as removing *an optional
leading `'#'`* (one character).  On the input `"##123456"` the remainder
after removing one leading `'#'` is `"#123456"`, which is not six hex
digits, so the claim classifies the string as malformed and predicts the
white fallback `(255, 255, 255, opacity)`.  The code's `lstrip("#")`
removes *all* leading `'#'` characters and parses `"123456"`, returning
`(18, 52, 86, 128)` — not white. -/
theorem hex_to_rgba_claim_counterexample :
    (("##123456".toList.drop 1).length ≠ 6 ∨
      ("##123456".toList.drop 1).all isHexDigitChar = false) ∧
    hex_to_rgba ("##123456".toList) 128 = (18, 52, 86, 128) ∧
    hex_to_rgba ("##123456".toList) 128 ≠ (255, 255, 255, 128) := by
  decide

/-- C1 (amended): for every input string, after removing **all** leading
`'#'` characters, if the remainder is exactly six hexadecimal digits the
result is `(r, g, b, opacity)` where `r`, `g`, `b` are the three
consecutive 2-digit hex bytes; for every other string the result is exactly
`(255, 255, 255, opacity)`; the function is total (never raises) and the
fourth channel always equals the given opacity. -/
theorem hex_to_rgba_amended (s : List Char) (opacity : ℤ) :
    (∀ c0 c1 c2 c3 c4 c5,
      s.dropWhile (fun c => c == '#') = [c0, c1, c2, c3, c4, c5] →
      isHexDigitChar c0 = true → isHexDigitChar c1 = true →
      isHexDigitChar c2 = true → isHexDigitChar c3 = true →
      isHexDigitChar c4 = true → isHexDigitChar c5 = true →
      hex_to_rgba s opacity =
        (16 * (hexDigitVal c0 : ℤ) + (hexDigitVal c1 : ℤ),
          16 * (hexDigitVal c2 : ℤ) + (hexDigitVal c3 : ℤ),
          16 * (hexDigitVal c4 : ℤ) + (hexDigitVal c5 : ℤ), opacity)) ∧
    (((s.dropWhile (fun c => c == '#')).length ≠ 6 ∨
        (s.dropWhile (fun c => c == '#')).all isHexDigitChar = false) →
      hex_to_rgba s opacity = (255, 255, 255, opacity)) ∧
    (hex_to_rgba s opacity).2.2.2 = opacity := by
  refine ⟨?_, ?_, ?_⟩
  · intro c0 c1 c2 c3 c4 c5 heq h0 h1 h2 h3 h4 h5
    unfold hex_to_rgba lstripHash
    rw [heq]
    rw [if_pos]
    · simp [pyIntHex]
    · refine ⟨rfl, ?_⟩
      simp [List.all_eq_true]
      exact ⟨h0, h1, h2, h3, h4, h5⟩
  · intro hbad
    unfold hex_to_rgba lstripHash
    rw [if_neg]
    rintro ⟨hlen, hall⟩
    rcases hbad with hbad | hbad
    · exact hbad hlen
    · rw [hall] at hbad
      exact Bool.noConfusion hbad
  · unfold hex_to_rgba
    split <;> rfl

/-- C1 (witness for the amended theorem): `"#1A2b3C"` resolves to
`(26, 43, 60, 7)` at opacity 7. -/
theorem hex_to_rgba_amended_witness :
    hex_to_rgba ("#1A2b3C".toList) 7 = (26, 43, 60, 7) := by
  have h := (hex_to_rgba_amended ("#1A2b3C".toList) 7).1 '1' 'A' '2' 'b' '3' 'C'
    (by decide) (by decide) (by decide) (by decide) (by decide) (by decide) (by decide)
  exact h.trans (by decide)

/-! ### Resolution clamping (`resize_image`, lines 29-34)

`resize_image` delegates to `PIL.Image.thumbnail`, an external collaborator
(spec §1, "standard fit-within-box thumbnail semantics").  Modelled from the
spec: `thumbnailSize` embeds Pillow's documented thumbnail dimension
computation (floor/ceil of the aspect-scaled dimension, choosing the
candidate closest to the true aspect ratio, clamped to at least 1), with
Python float arithmetic modelled as exact rational arithmetic. -/

/-- Pillow's `round_aspect(number, key)`:
`max(min(math.floor(number), math.ceil(number), key=key), 1)`.
Python's `min` is stable, so the floor wins ties. -/
def round_aspect (q : ℚ) (key : ℤ → ℚ) : ℤ :=
  max (if key ⌊q⌋ ≤ key ⌈q⌉ then ⌊q⌋ else ⌈q⌉) 1

/-- New dimensions computed by `image.thumbnail((m, m))` on a `w × h` image.
Pillow first returns unchanged when the box already contains the image;
otherwise it shrinks the axis opposite the binding one. -/
def thumbnailSize (w h : ℕ) (m : ℤ) : ℤ × ℤ :=
  if m ≥ (w : ℤ) ∧ m ≥ (h : ℤ) then ((w : ℤ), (h : ℤ))
  else
    let aspect : ℚ := (w : ℚ) / (h : ℚ)
    if (m : ℚ) / (m : ℚ) ≥ aspect then
      (round_aspect ((m : ℚ) * aspect) (fun n => |aspect - (n : ℚ) / (h : ℚ)|), m)
    else
      (m, round_aspect ((m : ℚ) / aspect)
        (fun n => if n = 0 then 0 else |aspect - (m : ℚ) / (n : ℚ)|))

/-- Embedding of `resize_image` (lines 29-34), at the level of dimensions:
`image.thumbnail((max_resolution, max_resolution))` is called only when
`width > max_resolution or height > max_resolution`. -/
def resize_image (w h : ℕ) (max_resolution : ℤ) : ℤ × ℤ :=
  if (w : ℤ) > max_resolution ∨ (h : ℤ) > max_resolution then
    thumbnailSize w h max_resolution
  else ((w : ℤ), (h : ℤ))

/-- `round_aspect` stays inside the floor/ceil envelope of a positive
rational and is at least 1. -/
lemma round_aspect_bounds (q : ℚ) (key : ℤ → ℚ) (hq : 0 < q) :
    ⌊q⌋ ≤ round_aspect q key ∧ round_aspect q key ≤ ⌈q⌉ ∧
      1 ≤ round_aspect q key := by
  have hceil : 1 ≤ ⌈q⌉ := Int.ceil_pos.mpr hq
  unfold round_aspect
  split
  · exact ⟨le_max_left _ _, max_le (Int.floor_le_ceil q) hceil, le_max_right _ _⟩
  · exact ⟨le_trans (Int.floor_le_ceil q) (le_max_left _ _),
      max_le le_rfl hceil, le_max_right _ _⟩

/-- Dimension bounds and aspect preservation for `thumbnailSize` when the
image exceeds the bound on some axis. -/
lemma thumbnailSize_bounds (w h : ℕ) (m : ℤ) (hw : 0 < w) (hh : 0 < h)
    (hm : 0 < m) (hex : m < (w : ℤ) ∨ m < (h : ℤ)) :
    (thumbnailSize w h m).1 ≤ m ∧ (thumbnailSize w h m).2 ≤ m ∧
      ((w ≤ h ∧ (thumbnailSize w h m).2 = m ∧
          ⌊(m : ℚ) * w / h⌋ ≤ (thumbnailSize w h m).1 ∧
          (thumbnailSize w h m).1 ≤ ⌈(m : ℚ) * w / h⌉) ∨
        (h < w ∧ (thumbnailSize w h m).1 = m ∧
          ⌊(m : ℚ) * h / w⌋ ≤ (thumbnailSize w h m).2 ∧
          (thumbnailSize w h m).2 ≤ ⌈(m : ℚ) * h / w⌉)) := by
  have hwq : (0 : ℚ) < (w : ℚ) := by exact_mod_cast hw
  have hhq : (0 : ℚ) < (h : ℚ) := by exact_mod_cast hh
  have hmq : (0 : ℚ) < (m : ℚ) := by exact_mod_cast hm
  have hne : ¬(m ≥ (w : ℤ) ∧ m ≥ (h : ℤ)) := by
    rintro ⟨h1, h2⟩
    rcases hex with hx | hx <;> omega
  have hmm : (m : ℚ) / (m : ℚ) = 1 := div_self (ne_of_gt hmq)
  unfold thumbnailSize
  rw [if_neg hne]
  by_cases hcase : (w : ℕ) ≤ h
  · have haspect : (w : ℚ) / (h : ℚ) ≤ 1 := by
      rw [div_le_one hhq]
      exact_mod_cast hcase
    rw [if_pos (by rw [hmm]; exact haspect)]
    have hq : (0 : ℚ) < (m : ℚ) * ((w : ℚ) / (h : ℚ)) :=
      mul_pos hmq (div_pos hwq hhq)
    have hq' : (m : ℚ) * ((w : ℚ) / (h : ℚ)) = (m : ℚ) * w / h :=
      (mul_div_assoc _ _ _).symm
    have hle : (m : ℚ) * ((w : ℚ) / (h : ℚ)) ≤ (m : ℚ) := by
      calc (m : ℚ) * ((w : ℚ) / (h : ℚ)) ≤ (m : ℚ) * 1 :=
            mul_le_mul_of_nonneg_left haspect (le_of_lt hmq)
        _ = (m : ℚ) := mul_one _
    obtain ⟨hb1, hb2, _⟩ := round_aspect_bounds ((m : ℚ) * ((w : ℚ) / (h : ℚ)))
      (fun n => |(w : ℚ) / (h : ℚ) - (n : ℚ) / (h : ℚ)|) hq
    refine ⟨le_trans hb2 (Int.ceil_le.mpr hle), le_refl m, Or.inl ⟨hcase, rfl, ?_, ?_⟩⟩
    · rw [← hq']; exact hb1
    · rw [← hq']; exact hb2
  · push_neg at hcase
    have haspect : 1 < (w : ℚ) / (h : ℚ) := by
      rw [one_lt_div hhq]
      exact_mod_cast hcase
    rw [if_neg (by rw [hmm]; exact not_le.mpr haspect)]
    have hq : (0 : ℚ) < (m : ℚ) / ((w : ℚ) / (h : ℚ)) :=
      div_pos hmq (lt_trans one_pos haspect)
    have hq' : (m : ℚ) / ((w : ℚ) / (h : ℚ)) = (m : ℚ) * h / w :=
      div_div_eq_mul_div _ _ _
    have hle : (m : ℚ) / ((w : ℚ) / (h : ℚ)) ≤ (m : ℚ) :=
      div_le_self (le_of_lt hmq) (le_of_lt haspect)
    obtain ⟨hb1, hb2, _⟩ := round_aspect_bounds ((m : ℚ) / ((w : ℚ) / (h : ℚ)))
      (fun n => if n = 0 then 0 else |(w : ℚ) / (h : ℚ) - (m : ℚ) / (n : ℚ)|) hq
    refine ⟨le_refl m, le_trans hb2 (Int.ceil_le.mpr hle), Or.inr ⟨hcase, rfl, ?_, ?_⟩⟩
    · rw [← hq']; exact hb1
    · rw [← hq']; exact hb2

/-- C2: for every image and every positive bound, if both dimensions are
already within the bound `resize_image` is a no-op; if either dimension
exceeds the bound, both output dimensions are at most the bound, the
binding axis is set to the bound and the other axis is the aspect-exact
value `m·small/large` up to rounding (its floor/ceil envelope). -/
theorem resize_image_clamps (w h : ℕ) (m : ℤ) (hw : 0 < w) (hh : 0 < h)
    (hm : 0 < m) :
    ((w : ℤ) ≤ m ∧ (h : ℤ) ≤ m → resize_image w h m = ((w : ℤ), (h : ℤ))) ∧
    (m < (w : ℤ) ∨ m < (h : ℤ) →
      (resize_image w h m).1 ≤ m ∧ (resize_image w h m).2 ≤ m ∧
      ((w ≤ h ∧ (resize_image w h m).2 = m ∧
          ⌊(m : ℚ) * w / h⌋ ≤ (resize_image w h m).1 ∧
          (resize_image w h m).1 ≤ ⌈(m : ℚ) * w / h⌉) ∨
        (h < w ∧ (resize_image w h m).1 = m ∧
          ⌊(m : ℚ) * h / w⌋ ≤ (resize_image w h m).2 ∧
          (resize_image w h m).2 ≤ ⌈(m : ℚ) * h / w⌉))) := by
  constructor
  · rintro ⟨h1, h2⟩
    unfold resize_image
    rw [if_neg]
    rintro (hx | hx) <;> omega
  · intro hex
    have hguard : (w : ℤ) > m ∨ (h : ℤ) > m := by
      rcases hex with hx | hx
      · exact Or.inl hx
      · exact Or.inr hx
    unfold resize_image
    rw [if_pos hguard]
    exact thumbnailSize_bounds w h m hw hh hm hex

/-- C2 (witness): a 100×40 image clamped to 10 fits in the 10×10 box. -/
theorem resize_image_clamps_witness :
    (resize_image 100 40 10).1 ≤ 10 ∧ (resize_image 100 40 10).2 ≤ 10 := by
  have H := (resize_image_clamps 100 40 10 (by decide) (by decide)
    (by decide)).2 (by decide)
  exact ⟨H.1, H.2.1⟩

/-! ### The PIL image model

Modelled from the spec: PIL is an external collaborator (spec §1).  An
image is a buffer carrying a pixel mode, dimensions and a symbolic pixel
content; each operation used by the source is given its documented
semantics.  `Image.thumbnail` and `ImageDraw.Draw.text` modify the image
they are called on in place; `Image.convert`, `Image.new` and
`Image.alpha_composite` return new images. -/

/-- PIL pixel modes used by the spec (3-channel, 4-channel, grayscale,
palette). -/
inductive PILMode
  | RGB | RGBA | L | P
deriving DecidableEq

/-- Symbolic pixel contents: enough structure to distinguish buffers and to
record which operation produced the pixels. -/
inductive PixelContent
  | source (tag : ℕ)
  | converted (base : PixelContent) (m : PILMode)
  | resized (base : PixelContent) (w h : ℕ)
  | blank (rgba : ℤ × ℤ × ℤ × ℤ)
  | drawn (base : PixelContent) (text : List Char) (xy : ℚ × ℚ)
      (color : ℤ × ℤ × ℤ × ℤ)
  | composited (bg fg : PixelContent)
deriving DecidableEq

/-- A decoded PIL image buffer. -/
structure PILImage where
  mode : PILMode
  width : ℕ
  height : ℕ
  content : PixelContent
deriving DecidableEq

/-- `Image.convert(mode)`: returns a new image in the given mode. -/
def convertMode (img : PILImage) (m : PILMode) : PILImage :=
  ⟨m, img.width, img.height, .converted img.content m⟩

/-- `image.thumbnail((m, m))`: in-place downscale to fit the `m × m` box
(dimensions from `thumbnailSize`); returns without touching the buffer when
the box already contains the image. -/
def thumbnailImg (img : PILImage) (m : ℤ) : PILImage :=
  if m ≥ (img.width : ℤ) ∧ m ≥ (img.height : ℤ) then img
  else
    ⟨img.mode, (thumbnailSize img.width img.height m).1.toNat,
      (thumbnailSize img.width img.height m).2.toNat,
      .resized img.content (thumbnailSize img.width img.height m).1.toNat
        (thumbnailSize img.width img.height m).2.toNat⟩

/-- Embedding of `resize_image` (lines 29-34) at the level of buffers: the
guard is from the source; the `thumbnail` call mutates its argument and the
function returns the same object. -/
def resize_image_img (image : PILImage) (max_resolution : ℤ) : PILImage :=
  if (image.width : ℤ) > max_resolution ∨ (image.height : ℤ) > max_resolution then
    thumbnailImg image max_resolution
  else image

/-- `Image.new(mode, size, color)`: a fresh buffer of constant color. -/
def PILImage.new (m : PILMode) (w h : ℕ) (c : ℤ × ℤ × ℤ × ℤ) : PILImage :=
  ⟨m, w, h, .blank c⟩

/-- `draw.text(xy, text, font=…, fill=color)`: draws in place on the buffer
the `ImageDraw.Draw` object wraps. -/
def drawText (img : PILImage) (t : List Char) (xy : ℚ × ℚ)
    (c : ℤ × ℤ × ℤ × ℤ) : PILImage :=
  ⟨img.mode, img.width, img.height, .drawn img.content t xy c⟩

/-- `Image.alpha_composite(im1, im2)`: requires two RGBA images of equal
size (else PIL raises `ValueError`), returns a new RGBA image. -/
def alphaComposite (im1 im2 : PILImage) : Option PILImage :=
  if im1.mode = .RGBA ∧ im2.mode = .RGBA ∧ im1.width = im2.width ∧
      im1.height = im2.height then
    some ⟨.RGBA, im1.width, im1.height, .composited im1.content im2.content⟩
  else none

/-- An encoded JPEG byte buffer (what `save(…, format="JPEG")` wrote). -/
structure JpegBytes where
  mode : PILMode
  width : ℕ
  height : ℕ
  content : PixelContent
deriving DecidableEq

/-- `image.save(buf, format="JPEG")`: the JPEG encoder accepts 3-channel
and grayscale images and rejects modes with alpha or palette
(`OSError: cannot write mode RGBA as JPEG`). -/
def saveJPEG (img : PILImage) : Option JpegBytes :=
  if img.mode = .RGB ∨ img.mode = .L then
    some ⟨img.mode, img.width, img.height, img.content⟩
  else none

/-- The font object: `ImageFont.truetype("arial.ttf", font_size)` when the
preferred font loads, `ImageFont.load_default()` otherwise. -/
inductive Font
  | truetype (size : ℕ)
  | fallbackDefault
deriving DecidableEq

/-! ### `add_watermark` (lines 37-99) -/

/-- The `WatermarkPosition` enum (lines 13-18). -/
inductive WatermarkPosition
  | TOP_LEFT | TOP_RIGHT | BOTTOM_LEFT | BOTTOM_RIGHT | CENTER
deriving DecidableEq

/-- The position dispatch of `add_watermark` (lines 77-86): an `if/elif`
chain with no `else` branch, so the result is an `Option` — `none` models
the fall-through in which `x, y` would be left unassigned.  The `CENTER`
branch uses Python float division (`width / 2 - text_width / 2`), exact on
halves, modelled in `ℚ`; the other branches are integer arithmetic. -/
def calc_xy (position : WatermarkPosition) (width height text_width text_height : ℤ) :
    Option (ℚ × ℚ) :=
  if position = .TOP_LEFT then some (10, 10)
  else if position = .TOP_RIGHT then some (((width - text_width - 10 : ℤ) : ℚ), 10)
  else if position = .BOTTOM_LEFT then some (10, ((height - text_height - 10 : ℤ) : ℚ))
  else if position = .BOTTOM_RIGHT then
    some (((width - text_width - 10 : ℤ) : ℚ), ((height - text_height - 10 : ℤ) : ℚ))
  else if position = .CENTER then
    some ((width : ℚ) / 2 - (text_width : ℚ) / 2, (height : ℚ) / 2 - (text_height : ℚ) / 2)
  else none

/-- Uploaded bytes either decode to an image or do not (decoding itself is
PIL's, out of scope). -/
inductive ImageBytes
  | decodable (img : PILImage)
  | undecodable
deriving DecidableEq

/-- `Image.open(io.BytesIO(image_data))` followed by `.convert("RGBA")`:
succeeds exactly on decodable bytes. -/
def pilOpen : ImageBytes → Option PILImage
  | .decodable img => some img
  | .undecodable => none

/-- Errors surfaced by the two endpoints and by `add_watermark`. -/
inductive ApiError
  | validationOpacity
  | validationResolution
  | invalidImage
  | internalFault
deriving DecidableEq

/-- HTTP status of each error: the three `HTTPException(status_code=400, …)`
raises are client errors; `internalFault` stands for an unhandled Python
exception (a 500 server fault), shown below to be unreachable. -/
def statusCode : ApiError → ℕ
  | .validationOpacity => 400
  | .validationResolution => 400
  | .invalidImage => 400
  | .internalFault => 500

/-- Python truthiness of the `max_resolution` parameter
(`if max_resolution:`): `None` and `0` are falsy. -/
def optTruthy : Option ℤ → Bool
  | none => false
  | some m => m != 0

/-- Result of a successful `add_watermark` call: the final state of every
buffer the call touched (`store`), the index of the decoded source buffer
(`srcRef`), and the encoded output. -/
structure AwOutput where
  store : List PILImage
  srcRef : ℕ
  jpeg : JpegBytes
deriving DecidableEq

/-- Embedding of `add_watermark` (lines 37-99).  `measure` abstracts
`draw.textbbox((0, 0), text, font=font)` (external font metrics): it yields
the measured text box `(text_width, text_height)` for a font and a text.
`fontAvailable` tells whether `ImageFont.truetype("arial.ttf", …)` loads;
the bare `except:` (line 68) silently falls back to the built-in font.
The store records the in-place effects: the source buffer (index 0) holds
the possibly thumbnail-mutated image, the overlay (index 1) holds the
drawn-on overlay, the composite (2) and flattened (3) buffers are fresh. -/
def add_watermark (image_data : ImageBytes) (text color : List Char)
    (font_size : ℕ) (opacity : ℤ) (position : WatermarkPosition)
    (max_resolution : Option ℤ) (fontAvailable : Bool)
    (measure : Font → List Char → ℤ × ℤ) : Except ApiError AwOutput :=
  match pilOpen image_data with
  | none => .error .invalidImage
  | some opened =>
    let image0 := convertMode opened .RGBA
    let image := if optTruthy max_resolution then
        resize_image_img image0 (max_resolution.getD 0)
      else image0
    let rgba_color := hex_to_rgba color opacity
    let overlay0 := PILImage.new .RGBA image.width image.height (255, 255, 255, 0)
    let font := if fontAvailable then Font.truetype font_size else Font.fallbackDefault
    let text_width := (measure font text).1
    let text_height := (measure font text).2
    match calc_xy position (image.width : ℤ) (image.height : ℤ) text_width text_height with
    | none => .error .internalFault
    | some xy =>
      let overlay := drawText overlay0 text xy rgba_color
      match alphaComposite image overlay with
      | none => .error .internalFault
      | some watermarked =>
        let final_image := convertMode watermarked .RGB
        match saveJPEG final_image with
        | none => .error .internalFault
        | some jpeg => .ok ⟨[image, overlay, watermarked, final_image], 0, jpeg⟩

/-- Total form of the position dispatch (used only to state the success
shape of `add_watermark`); `calc_xy_eq_some` proves it agrees with the
`if/elif` chain. -/
def xyOf (position : WatermarkPosition) (width height text_width text_height : ℤ) :
    ℚ × ℚ :=
  match position with
  | .TOP_LEFT => (10, 10)
  | .TOP_RIGHT => (((width - text_width - 10 : ℤ) : ℚ), 10)
  | .BOTTOM_LEFT => (10, ((height - text_height - 10 : ℤ) : ℚ))
  | .BOTTOM_RIGHT =>
      (((width - text_width - 10 : ℤ) : ℚ), ((height - text_height - 10 : ℤ) : ℚ))
  | .CENTER =>
      ((width : ℚ) / 2 - (text_width : ℚ) / 2, (height : ℚ) / 2 - (text_height : ℚ) / 2)

lemma calc_xy_eq_some (position : WatermarkPosition) (w h tw th : ℤ) :
    calc_xy position w h tw th = some (xyOf position w h tw th) := by
  cases position <;> rfl

/-- The source buffer after the resize step of `add_watermark`
(lines 52-54): the RGBA-converted decode, thumbnail-mutated in place when
`max_resolution` is truthy and a dimension exceeds it. -/
def srcAfter (img : PILImage) (max_resolution : Option ℤ) : PILImage :=
  if optTruthy max_resolution then
    resize_image_img (convertMode img .RGBA) (max_resolution.getD 0)
  else convertMode img .RGBA

/-- The output `add_watermark` produces on decodable bytes
(`add_watermark_decodable_eq` proves this closed form). -/
def awResult (img : PILImage) (text color : List Char) (font_size : ℕ)
    (opacity : ℤ) (position : WatermarkPosition) (max_resolution : Option ℤ)
    (fontAvailable : Bool) (measure : Font → List Char → ℤ × ℤ) : AwOutput :=
  let src := srcAfter img max_resolution
  let font := if fontAvailable then Font.truetype font_size else Font.fallbackDefault
  let ov := drawText (PILImage.new .RGBA src.width src.height (255, 255, 255, 0))
    text (xyOf position (src.width : ℤ) (src.height : ℤ) (measure font text).1
      (measure font text).2) (hex_to_rgba color opacity)
  let comp : PILImage := ⟨.RGBA, src.width, src.height, .composited src.content ov.content⟩
  let fin := convertMode comp .RGB
  ⟨[src, ov, comp, fin], 0, ⟨fin.mode, fin.width, fin.height, fin.content⟩⟩

lemma thumbnailImg_mode (img : PILImage) (m : ℤ) :
    (thumbnailImg img m).mode = img.mode := by
  unfold thumbnailImg
  split <;> rfl

lemma resize_image_img_mode (img : PILImage) (m : ℤ) :
    (resize_image_img img m).mode = img.mode := by
  unfold resize_image_img
  split
  · exact thumbnailImg_mode img m
  · rfl

lemma srcAfter_mode (img : PILImage) (mr : Option ℤ) :
    (srcAfter img mr).mode = .RGBA := by
  unfold srcAfter
  split
  · exact resize_image_img_mode _ _
  · rfl

lemma alphaComposite_overlay (src : PILImage) (hm : src.mode = .RGBA)
    (t : List Char) (xy : ℚ × ℚ) (c : ℤ × ℤ × ℤ × ℤ) :
    alphaComposite src
      (drawText (PILImage.new .RGBA src.width src.height (255, 255, 255, 0)) t xy c) =
      some ⟨.RGBA, src.width, src.height, .composited src.content
        (drawText (PILImage.new .RGBA src.width src.height (255, 255, 255, 0)) t xy c).content⟩ := by
  unfold alphaComposite
  rw [if_pos ⟨hm, rfl, rfl, rfl⟩]

lemma saveJPEG_rgb (img : PILImage) (hm : img.mode = .RGB) :
    saveJPEG img = some ⟨img.mode, img.width, img.height, img.content⟩ := by
  unfold saveJPEG
  rw [if_pos (Or.inl hm)]

/-- On decodable bytes `add_watermark` returns exactly `awResult`: the
position dispatch always assigns, the composite operands are same-size
RGBA images, and the flattened result is JPEG-encodable. -/
lemma add_watermark_decodable_eq (img : PILImage) (text color : List Char)
    (font_size : ℕ) (opacity : ℤ) (position : WatermarkPosition)
    (max_resolution : Option ℤ) (fontAvailable : Bool)
    (measure : Font → List Char → ℤ × ℤ) :
    add_watermark (.decodable img) text color font_size opacity position
      max_resolution fontAvailable measure =
      .ok (awResult img text color font_size opacity position max_resolution
        fontAvailable measure) := by
  unfold add_watermark
  dsimp only [pilOpen]
  rw [show (if optTruthy max_resolution = true then
        resize_image_img (convertMode img PILMode.RGBA) (max_resolution.getD 0)
      else convertMode img PILMode.RGBA) = srcAfter img max_resolution from rfl]
  rw [calc_xy_eq_some]
  dsimp only
  rw [alphaComposite_overlay (srcAfter img max_resolution) (srcAfter_mode img max_resolution)]
  dsimp only
  rw [saveJPEG_rgb _ rfl]
  rfl

/-- C3: the draw origin computed by the compositor's position dispatch
(lines 76-89) is exactly the 10-pixel-inset / centered formula for each
position.  The equations hold for **all** integer image and text-box
dimensions, including those making a coordinate negative or larger than
the image — the value is used as computed, never clamped. -/
theorem draw_origin_formulas (width height text_width text_height : ℤ) :
    calc_xy .TOP_LEFT width height text_width text_height = some (10, 10) ∧
    calc_xy .TOP_RIGHT width height text_width text_height =
      some ((width : ℚ) - text_width - 10, 10) ∧
    calc_xy .BOTTOM_LEFT width height text_width text_height =
      some (10, (height : ℚ) - text_height - 10) ∧
    calc_xy .BOTTOM_RIGHT width height text_width text_height =
      some ((width : ℚ) - text_width - 10, (height : ℚ) - text_height - 10) ∧
    calc_xy .CENTER width height text_width text_height =
      some ((width : ℚ) / 2 - (text_width : ℚ) / 2,
        (height : ℚ) / 2 - (text_height : ℚ) / 2) := by
  refine ⟨rfl, ?_, ?_, ?_, rfl⟩ <;>
  · rw [calc_xy_eq_some]
    simp only [xyOf, Option.some_inj, Prod.mk.injEq]
    constructor <;> push_cast <;> ring

/-- C10: the `if/elif` chain of the position dispatch has no default
branch, yet for every value of the closed `WatermarkPosition` enum exactly
one equality test matches, so the dispatch always assigns coordinates
(`isSome`: the draw call never sees unassigned `x, y`). -/
theorem position_dispatch_total (position : WatermarkPosition)
    (width height text_width text_height : ℤ) :
    (calc_xy position width height text_width text_height).isSome = true ∧
    ([decide (position = .TOP_LEFT), decide (position = .TOP_RIGHT),
      decide (position = .BOTTOM_LEFT), decide (position = .BOTTOM_RIGHT),
      decide (position = .CENTER)].count true = 1) := by
  cases position <;> exact ⟨rfl, rfl⟩

/-- C4: `add_watermark` fails if and only if the input bytes cannot be
decoded; the error is then `invalidImage`, a 400 client error.  On every
decodable input it succeeds, for **every** color string (malformed ones
included), whether or not the preferred font is available, and for every
measured text size (text larger than the image included). -/
theorem add_watermark_raises_iff (image_data : ImageBytes) (text color : List Char)
    (font_size : ℕ) (opacity : ℤ) (position : WatermarkPosition)
    (max_resolution : Option ℤ) (fontAvailable : Bool)
    (measure : Font → List Char → ℤ × ℤ) :
    ((∃ e, add_watermark image_data text color font_size opacity position
        max_resolution fontAvailable measure = .error e) ↔
      image_data = .undecodable) ∧
    (∀ e, add_watermark image_data text color font_size opacity position
        max_resolution fontAvailable measure = .error e →
      e = .invalidImage ∧ statusCode e = 400) := by
  cases image_data with
  | decodable img =>
    rw [add_watermark_decodable_eq]
    refine ⟨⟨?_, ?_⟩, ?_⟩
    · rintro ⟨e, he⟩
      exact absurd he (by simp)
    · intro h
      exact absurd h (by simp)
    · intro e he
      exact absurd he (by simp)
  | undecodable =>
    refine ⟨⟨fun _ => rfl, fun _ => ⟨.invalidImage, rfl⟩⟩, ?_⟩
    intro e he
    have h2 : Except.error (α := AwOutput) ApiError.invalidImage = .error e := he
    injection h2 with h3
    subst h3
    exact ⟨rfl, rfl⟩

/-- C4 (witness): undecodable bytes produce an error. -/
theorem add_watermark_raises_iff_witness :
    ∃ e, add_watermark .undecodable ("WATERMARK".toList) ("#FFFFFF".toList) 50 128
      .CENTER (some 800) true (fun _ _ => ((0 : ℤ), (0 : ℤ))) = .error e :=
  (add_watermark_raises_iff .undecodable ("WATERMARK".toList) ("#FFFFFF".toList) 50 128
    .CENTER (some 800) true (fun _ _ => ((0 : ℤ), (0 : ℤ)))).1.mpr rfl

lemma srcAfter_content (img : PILImage) (mr : Option ℤ) :
    (srcAfter img mr).content = .converted img.content .RGBA ∨
      ∃ w h, (srcAfter img mr).content = .resized (.converted img.content .RGBA) w h := by
  unfold srcAfter resize_image_img thumbnailImg convertMode
  split
  · split
    · split
      · exact Or.inl rfl
      · exact Or.inr ⟨_, _, rfl⟩
    · exact Or.inl rfl
  · exact Or.inl rfl

/-- C7: for every decodable input image of **any** pixel mode, the output
is a JPEG in opaque 3-channel `RGB` mode, and its pixels are a flatten
(`convert("RGB")`) of a composite whose background is the source converted
to 4-channel `RGBA` (possibly resized) — i.e. the source is normalized to
RGBA before compositing and the alpha is dropped before encoding. -/
theorem add_watermark_opaque_output (img : PILImage) (text color : List Char)
    (font_size : ℕ) (opacity : ℤ) (position : WatermarkPosition)
    (max_resolution : Option ℤ) (fontAvailable : Bool)
    (measure : Font → List Char → ℤ × ℤ) :
    ∀ out, add_watermark (.decodable img) text color font_size opacity position
        max_resolution fontAvailable measure = .ok out →
      out.jpeg.mode = .RGB ∧
      (∃ bg fg, out.jpeg.content = .converted (.composited bg fg) .RGB ∧
        (bg = .converted img.content .RGBA ∨
          ∃ w h, bg = .resized (.converted img.content .RGBA) w h)) := by
  intro out hout
  rw [add_watermark_decodable_eq] at hout
  injection hout with h
  subst h
  exact ⟨rfl, ⟨(srcAfter img max_resolution).content, _, rfl,
    srcAfter_content img max_resolution⟩⟩

/-- C7 (witness): a palette-mode input yields an RGB-mode JPEG. -/
theorem add_watermark_opaque_output_witness :
    (awResult ⟨.P, 3, 3, .source 0⟩ ("WATERMARK".toList) ("#FFFFFF".toList) 50 128
      .CENTER (some 800) true (fun _ _ => (1, 1))).jpeg.mode = .RGB :=
  (add_watermark_opaque_output ⟨.P, 3, 3, .source 0⟩ ("WATERMARK".toList)
    ("#FFFFFF".toList) 50 128 .CENTER (some 800) true (fun _ _ => (1, 1)) _
    (add_watermark_decodable_eq _ _ _ _ _ _ _ _ _)).1

lemma srcAfter_eq_of_within (img : PILImage) (mr : Option ℤ)
    (hwithin : ∀ m, mr = some m →
      m = 0 ∨ ((img.width : ℤ) ≤ m ∧ (img.height : ℤ) ≤ m)) :
    srcAfter img mr = convertMode img .RGBA := by
  unfold srcAfter
  cases mr with
  | none => rfl
  | some m =>
    by_cases hm : m = 0
    · subst hm
      rw [if_neg (by norm_num [optTruthy])]
    · rw [if_pos (by simp [optTruthy, hm])]
      unfold resize_image_img
      rw [if_neg]
      rcases hwithin m rfl with h0 | ⟨h1, h2⟩
      · exact absurd h0 hm
      · show ¬(((convertMode img .RGBA).width : ℤ) > (some m).getD 0 ∨
          ((convertMode img .RGBA).height : ℤ) > (some m).getD 0)
        rw [show (convertMode img .RGBA).width = img.width from rfl,
          show (convertMode img .RGBA).height = img.height from rfl,
          Option.getD_some]
        omega

lemma srcAfter_resized_of_exceeds (img : PILImage) (m : ℤ) (hm : m ≠ 0)
    (hex : (img.width : ℤ) > m ∨ (img.height : ℤ) > m)
    (hnotboth : ¬(m ≥ (img.width : ℤ) ∧ m ≥ (img.height : ℤ))) :
    ∃ w h, (srcAfter img (some m)).content =
      .resized (.converted img.content .RGBA) w h := by
  unfold srcAfter
  rw [if_pos (by simp [optTruthy, hm])]
  unfold resize_image_img
  rw [if_pos (by exact hex)]
  unfold thumbnailImg
  rw [if_neg (by exact hnotboth)]
  exact ⟨_, _, rfl⟩

/-- C9 (counterexample): the claim says every transformation step leaves
the buffer it is given unchanged and in particular that the decoded source
buffer is never mutated in place.  But `resize_image` calls
`image.thumbnail(…)`, which resizes the image object **in place**, and
returns that same object.  Decoding a 100×50 image with
`max_resolution = 10`: after the call the source buffer (store index
`srcRef`) no longer holds the RGBA-converted decode — it was overwritten
with the thumbnail. -/
theorem source_buffer_mutated_counterexample :
    ∃ out, add_watermark (.decodable ⟨.RGB, 100, 50, .source 0⟩)
        ("WATERMARK".toList) ("#FFFFFF".toList) 50 128 .CENTER (some 10) true
        (fun _ _ => (5, 5)) = .ok out ∧
      out.store.get? out.srcRef ≠
        some (convertMode ⟨.RGB, 100, 50, .source 0⟩ .RGBA) := by
  refine ⟨_, add_watermark_decodable_eq _ _ _ _ _ _ _ _ _, ?_⟩
  intro hcontra
  obtain ⟨w, h, hres⟩ := srcAfter_resized_of_exceeds ⟨.RGB, 100, 50, .source 0⟩ 10
    (by decide) (by norm_num) (by norm_num)
  have h1 : srcAfter ⟨.RGB, 100, 50, .source 0⟩ (some 10) =
      convertMode ⟨.RGB, 100, 50, .source 0⟩ .RGBA := by
    injection hcontra
  have hc := congrArg PILImage.content h1
  rw [hres] at hc
  exact PixelContent.noConfusion hc

/-- C9 (amended): during one compositing call, overlay drawing,
compositing and flattening leave the decoded source buffer untouched and
the composite and flattened buffers are new; resolution clamping, however,
operates **in place**: the source buffer (index `srcRef`) ends up holding
the thumbnail-resized image, and it still holds the unmodified
RGBA-converted decode only when no downscale was triggered (no bound, a
falsy bound, or both dimensions within the bound). -/
theorem source_buffer_mutation_amended (img : PILImage) (text color : List Char)
    (font_size : ℕ) (opacity : ℤ) (position : WatermarkPosition)
    (max_resolution : Option ℤ) (fontAvailable : Bool)
    (measure : Font → List Char → ℤ × ℤ) :
    ∀ out, add_watermark (.decodable img) text color font_size opacity position
        max_resolution fontAvailable measure = .ok out →
      out.srcRef = 0 ∧
      out.store.get? out.srcRef = some (srcAfter img max_resolution) ∧
      ((∀ m, max_resolution = some m →
          m = 0 ∨ ((img.width : ℤ) ≤ m ∧ (img.height : ℤ) ≤ m)) →
        out.store.get? out.srcRef = some (convertMode img .RGBA)) ∧
      (∃ ov comp fin, out.store = [srcAfter img max_resolution, ov, comp, fin] ∧
        comp.content = .composited (srcAfter img max_resolution).content ov.content ∧
        fin.content = .converted comp.content .RGB) := by
  intro out hout
  rw [add_watermark_decodable_eq] at hout
  injection hout with h
  subst h
  refine ⟨rfl, rfl, ?_, ⟨_, _, _, rfl, rfl, rfl⟩⟩
  intro hwithin
  show some (srcAfter img max_resolution) = _
  rw [srcAfter_eq_of_within img max_resolution hwithin]

/-- C9 (witness for the amended theorem): a 4×4 image with bound 800 is
not resized, and the source buffer is exactly the RGBA-converted decode
after the call. -/
theorem source_buffer_mutation_amended_witness :
    ∃ out, add_watermark (.decodable ⟨.RGB, 4, 4, .source 0⟩)
        ("WATERMARK".toList) ("#FFFFFF".toList) 50 128 .CENTER (some 800) true
        (fun _ _ => (2, 2)) = .ok out ∧
      out.store.get? out.srcRef = some (convertMode ⟨.RGB, 4, 4, .source 0⟩ .RGBA) := by
  refine ⟨_, add_watermark_decodable_eq _ _ _ _ _ _ _ _ _, ?_⟩
  have h := source_buffer_mutation_amended ⟨.RGB, 4, 4, .source 0⟩
    ("WATERMARK".toList) ("#FFFFFF".toList) 50 128 .CENTER (some 800) true
    (fun _ _ => (2, 2)) _ (add_watermark_decodable_eq _ _ _ _ _ _ _ _ _)
  refine h.2.2.1 ?_
  intro m hm
  injection hm with hm'
  subst hm'
  right
  exact ⟨by norm_num, by norm_num⟩

/-! ### The HTTP endpoints (lines 102-177) -/

/-- Observable endpoint effects, in order: reading an upload's bytes
(`await file.read()`) and completing `add_watermark` for one image. -/
inductive ApiEvent
  | fileRead (i : ℕ)
  | imageProcessed (i : ℕ)
deriving DecidableEq

/-- Embedding of `watermark_image` (lines 102-134): opacity and resolution
are validated first; only then is the upload read and watermarked.  The
first component is the ordered trace of reads and processing steps (empty
when validation rejects the request). -/
def watermark_image (file : ImageBytes) (text color : List Char) (font_size : ℕ)
    (opacity : ℤ) (position : WatermarkPosition) (resolution : ℤ)
    (fontAvailable : Bool) (measure : Font → List Char → ℤ × ℤ) :
    List ApiEvent × Except ApiError JpegBytes :=
  if opacity < 0 ∨ 255 < opacity then ([], .error .validationOpacity)
  else if resolution ≤ 0 then ([], .error .validationResolution)
  else
    match add_watermark file text color font_size opacity position
        (some resolution) fontAvailable measure with
    | .error e => ([.fileRead 0], .error e)
    | .ok out => ([.fileRead 0, .imageProcessed 0], .ok out.jpeg)

/-- The `for file in files:` loop of `watermark_batch_images`
(lines 156-168): each file is read, then watermarked, and the result
appended; an exception raised by `add_watermark` propagates and aborts the
whole loop (and with it the endpoint). -/
def processFiles (text color : List Char) (font_size : ℕ) (opacity : ℤ)
    (position : WatermarkPosition) (resolution : ℤ) (fontAvailable : Bool)
    (measure : Font → List Char → ℤ × ℤ) :
    List ImageBytes → ℕ → List ApiEvent × Except ApiError (List AwOutput)
  | [], _ => ([], .ok [])
  | f :: rest, i =>
    match add_watermark f text color font_size opacity position (some resolution)
        fontAvailable measure with
    | .error e => ([.fileRead i], .error e)
    | .ok out =>
      let r := processFiles text color font_size opacity position resolution
        fontAvailable measure rest (i + 1)
      (.fileRead i :: .imageProcessed i :: r.1, r.2.map (fun outs => out :: outs))

/-- ZIP member name `f"watermarked_{i}.jpg"` (line 174). -/
def zipName (i : ℕ) : String :=
  "watermarked_" ++ toString i ++ ".jpg"

/-- The archive-packing loop `for i, img in enumerate(watermarked_images)`
(lines 172-174): one member per image, named by zero-based index, in
order. -/
def zipEntries : List AwOutput → ℕ → List (String × JpegBytes)
  | [], _ => []
  | o :: rest, i => (zipName i, o.jpeg) :: zipEntries rest (i + 1)

/-- The returned zip archive and its `Content-Disposition` filename. -/
structure BatchArchive where
  members : List (String × JpegBytes)
  filename : String

/-- Embedding of `watermark_batch_images` (lines 137-177). -/
def watermark_batch_images (files : List ImageBytes) (text color : List Char)
    (font_size : ℕ) (opacity : ℤ) (position : WatermarkPosition) (resolution : ℤ)
    (fontAvailable : Bool) (measure : Font → List Char → ℤ × ℤ) :
    List ApiEvent × Except ApiError BatchArchive :=
  if opacity < 0 ∨ 255 < opacity then ([], .error .validationOpacity)
  else if resolution ≤ 0 then ([], .error .validationResolution)
  else
    let r := processFiles text color font_size opacity position resolution
      fontAvailable measure files 0
    match r.2 with
    | .error e => (r.1, .error e)
    | .ok outs => (r.1, .ok ⟨zipEntries outs 0, "watermarked_images.zip"⟩)

/-- C8: on either endpoint, an opacity outside 0-255 or a non-positive
resolution is rejected with a 400 client error while the event trace is
still empty — no uploaded bytes are read and no image processing begins. -/
theorem validation_precedes_reading (file : ImageBytes) (files : List ImageBytes)
    (text color : List Char) (font_size : ℕ) (position : WatermarkPosition)
    (fontAvailable : Bool) (measure : Font → List Char → ℤ × ℤ)
    (opacity resolution : ℤ)
    (hbad : opacity < 0 ∨ 255 < opacity ∨ resolution ≤ 0) :
    ((watermark_image file text color font_size opacity position resolution
        fontAvailable measure).1 = [] ∧
      ∃ e, (watermark_image file text color font_size opacity position resolution
          fontAvailable measure).2 = .error e ∧ statusCode e = 400) ∧
    ((watermark_batch_images files text color font_size opacity position resolution
        fontAvailable measure).1 = [] ∧
      ∃ e, (watermark_batch_images files text color font_size opacity position
          resolution fontAvailable measure).2 = .error e ∧ statusCode e = 400) := by
  unfold watermark_image watermark_batch_images
  by_cases h1 : opacity < 0 ∨ 255 < opacity
  · rw [if_pos h1, if_pos h1]
    exact ⟨⟨rfl, ⟨.validationOpacity, rfl, rfl⟩⟩, ⟨rfl, ⟨.validationOpacity, rfl, rfl⟩⟩⟩
  · have h2 : resolution ≤ 0 := by tauto
    rw [if_neg h1, if_neg h1, if_pos h2, if_pos h2]
    exact ⟨⟨rfl, ⟨.validationResolution, rfl, rfl⟩⟩,
      ⟨rfl, ⟨.validationResolution, rfl, rfl⟩⟩⟩

/-- C8 (witness): `opacity = 300` is rejected on both endpoints with an
empty trace. -/
theorem validation_precedes_reading_witness :
    (watermark_image .undecodable ("WATERMARK".toList) ("#FFFFFF".toList) 50 300
      .CENTER 800 true (fun _ _ => ((0 : ℤ), (0 : ℤ)))).1 = [] ∧
    (watermark_batch_images [] ("WATERMARK".toList) ("#FFFFFF".toList) 50 300
      .CENTER 800 true (fun _ _ => ((0 : ℤ), (0 : ℤ)))).1 = [] := by
  have h := validation_precedes_reading .undecodable [] ("WATERMARK".toList)
    ("#FFFFFF".toList) 50 .CENTER true (fun _ _ => ((0 : ℤ), (0 : ℤ))) 300 800
    (by decide)
  exact ⟨h.1.1, h.2.1⟩

/-- C5 (the claim is the intent; the code aborts the batch): a batch of
[valid, undecodable, valid] does not produce an archive with the two valid
members — the `HTTPException` raised for the middle file propagates out of
the loop and the whole request fails with the single-image error, the
first image's finished work discarded and the third image never processed.
The event trace confirms processing stopped at the second file. -/
theorem batch_aborts_on_single_invalid :
    (watermark_batch_images
        [.decodable ⟨.RGB, 4, 4, .source 0⟩, .undecodable,
          .decodable ⟨.RGB, 4, 4, .source 1⟩]
        ("WATERMARK".toList) ("#FFFFFF".toList) 50 128 .CENTER 800 true
        (fun _ _ => (2, 2))).2 = .error .invalidImage ∧
    (watermark_batch_images
        [.decodable ⟨.RGB, 4, 4, .source 0⟩, .undecodable,
          .decodable ⟨.RGB, 4, 4, .source 1⟩]
        ("WATERMARK".toList) ("#FFFFFF".toList) 50 128 .CENTER 800 true
        (fun _ _ => (2, 2))).1 =
      [.fileRead 0, .imageProcessed 0, .fileRead 1] ∧
    statusCode .invalidImage = 400 := by
  refine ⟨?_, ?_, rfl⟩ <;>
  · unfold watermark_batch_images
    rw [if_neg (by norm_num), if_neg (by norm_num)]
    unfold processFiles
    rw [add_watermark_decodable_eq]
    rfl

lemma processFiles_all_ok (text color : List Char) (font_size : ℕ) (opacity : ℤ)
    (position : WatermarkPosition) (resolution : ℤ) (fontAvailable : Bool)
    (measure : Font → List Char → ℤ × ℤ) (imgs : List PILImage) :
    ∀ i, (processFiles text color font_size opacity position resolution
        fontAvailable measure (imgs.map ImageBytes.decodable) i).2 =
      .ok (imgs.map (fun img => awResult img text color font_size opacity position
        (some resolution) fontAvailable measure)) := by
  induction imgs with
  | nil => intro i; rfl
  | cons img rest ih =>
    intro i
    show (processFiles text color font_size opacity position resolution
      fontAvailable measure (ImageBytes.decodable img :: rest.map ImageBytes.decodable)
      i).2 = _
    unfold processFiles
    rw [add_watermark_decodable_eq]
    dsimp only
    rw [ih (i + 1)]
    rfl

lemma zipEntries_length (outs : List AwOutput) : ∀ i,
    (zipEntries outs i).length = outs.length := by
  induction outs with
  | nil => intro i; rfl
  | cons o rest ih =>
    intro i
    show (zipEntries (o :: rest) i).length = rest.length + 1
    unfold zipEntries
    rw [List.length_cons, ih (i + 1)]

lemma zipEntries_get (outs : List AwOutput) : ∀ (i k : ℕ)
    (hk : k < (zipEntries outs i).length) (hk2 : k < outs.length),
    (zipEntries outs i).get ⟨k, hk⟩ =
      (zipName (i + k), (outs.get ⟨k, hk2⟩).jpeg) := by
  induction outs with
  | nil =>
    intro i k hk hk2
    exact absurd hk2 (by simp)
  | cons o rest ih =>
    intro i k hk hk2
    cases k with
    | zero =>
      show (zipName i, o.jpeg) = (zipName (i + 0), o.jpeg)
      rw [Nat.add_zero]
    | succ k' =>
      show (zipEntries rest (i + 1)).get ⟨k', _⟩ = _
      rw [ih (i + 1) k' (by
          have := hk
          rw [show (zipEntries (o :: rest) i).length = (zipEntries rest (i + 1)).length + 1
            from by rw [zipEntries_length, zipEntries_length]; rfl] at this
          omega)
        (by simpa using hk2)]
      rw [show i + 1 + k' = i + (k' + 1) from by omega]
      rfl

/-- C6: for every batch of n decodable images the endpoint succeeds with an
archive of exactly n members; member k is named `watermarked_<k>.jpg` by
its zero-based input index, and member k's bytes are the watermark output
of input k — the members appear in the same order as the inputs. -/
theorem batch_archive_shape_order (imgs : List PILImage) (text color : List Char)
    (font_size : ℕ) (position : WatermarkPosition) (fontAvailable : Bool)
    (measure : Font → List Char → ℤ × ℤ) (opacity resolution : ℤ)
    (hop : 0 ≤ opacity ∧ opacity ≤ 255) (hres : 0 < resolution) :
    ∃ arch, (watermark_batch_images (imgs.map ImageBytes.decodable) text color
        font_size opacity position resolution fontAvailable measure).2 = .ok arch ∧
      arch.filename = "watermarked_images.zip" ∧
      arch.members.length = imgs.length ∧
      (∀ k (hk : k < arch.members.length),
        (arch.members.get ⟨k, hk⟩).1 = zipName k) ∧
      (∀ k (hk : k < arch.members.length) (hk2 : k < imgs.length),
        ∃ o, add_watermark (.decodable (imgs.get ⟨k, hk2⟩)) text color font_size
            opacity position (some resolution) fontAvailable measure = .ok o ∧
          (arch.members.get ⟨k, hk⟩).2 = o.jpeg) := by
  unfold watermark_batch_images
  rw [if_neg (by omega), if_neg (by omega)]
  dsimp only
  rw [processFiles_all_ok text color font_size opacity position resolution
    fontAvailable measure imgs 0]
  refine ⟨_, rfl, rfl, ?_, ?_, ?_⟩
  · show (zipEntries _ 0).length = _
    rw [zipEntries_length _ 0, List.length_map]
  · intro k hk
    have hk2 : k < (imgs.map (fun img => awResult img text color font_size opacity
        position (some resolution) fontAvailable measure)).length := by
      rw [← zipEntries_length _ 0]
      exact hk
    rw [zipEntries_get _ 0 k hk hk2]
    rw [Nat.zero_add]
  · intro k hk hk2
    refine ⟨awResult (imgs.get ⟨k, hk2⟩) text color font_size opacity position
      (some resolution) fontAvailable measure,
      add_watermark_decodable_eq _ _ _ _ _ _ _ _ _, ?_⟩
    have hk3 : k < (imgs.map (fun img => awResult img text color font_size opacity
        position (some resolution) fontAvailable measure)).length := by
      rw [List.length_map]
      exact hk2
    rw [zipEntries_get _ 0 k hk hk3]
    show ((imgs.map _).get ⟨k, hk3⟩).jpeg = _
    congr 1
    simp only [List.get_eq_getElem, List.getElem_map]

/-- C6 (witness): the spec's scenario — a batch of three valid images
yields an archive whose members are `watermarked_0.jpg`,
`watermarked_1.jpg`, `watermarked_2.jpg` in input order. -/
theorem batch_archive_shape_order_witness :
    ∃ arch, (watermark_batch_images
        ([⟨.RGB, 4, 4, .source 0⟩, ⟨.RGB, 4, 4, .source 1⟩,
          ⟨.RGB, 4, 4, .source 2⟩].map ImageBytes.decodable)
        ("WATERMARK".toList) ("#FFFFFF".toList) 50 128 .CENTER 800 true
        (fun _ _ => (2, 2))).2 = .ok arch ∧
      arch.filename = "watermarked_images.zip" ∧
      arch.members.length = 3 ∧
      (∀ k (hk : k < arch.members.length),
        (arch.members.get ⟨k, hk⟩).1 = zipName k) := by
  obtain ⟨arch, h1, h2, h3, h4, _⟩ := batch_archive_shape_order
    [⟨.RGB, 4, 4, .source 0⟩, ⟨.RGB, 4, 4, .source 1⟩, ⟨.RGB, 4, 4, .source 2⟩]
    ("WATERMARK".toList) ("#FFFFFF".toList) 50 .CENTER true (fun _ _ => (2, 2))
    128 800 (by decide) (by decide)
  exact ⟨arch, h1, h2, h3, h4⟩
